import Mathlib

/-!
Shallow embedding of `src/error_handler.py` (a Python 2 module collecting
validation errors, database errors, consistency errors and record statistics
during a LabDB-to-CentralDB transfer), together with theorems checking the
module's natural-language specification against this embedding.

Modelling conventions:
* Python string values that may be `None` are `Option String`; rendering an
  optional value through Python's `%s` turns `None` into the literal text
  `"None"` (`pyS`).
* Python dicts are modelled as association lists (`List (key × value)` with
  unique keys) stored in build order; `d.has_key(k)` / `d[k]` become
  `List.lookup`.  CPython 2 iterates a dict in hash order, which the source
  never sorts for the inner stage dicts, so statements about the report's
  inner emission order quantify over an arbitrary enumeration of the stored
  buckets (`get_error_msg_in`); `get_error_msg` fixes one admissible order.
* Python 2 orders `None` below every string, so the optional target keys are
  ordered as `WithBot String` (`none` is the bottom sentinel); plain string
  keys use the lexicographic `String` order.
* Python's stable `sorted` is `List.mergeSort`; `itertools.groupby` over a
  sorted list is `groupRuns`, which groups maximal runs of equal keys.
* The logger is modelled as a list of emitted log lines inside the handler
  state; file-system side effects of logging are outside the model.
-/

namespace EH

instance : LinearOrder (Option String) := inferInstanceAs (LinearOrder (WithBot String))

/-- Python `%s` rendering of an optional string: `None` prints as `"None"`. -/
def pyS : Option String → String
  | none => "None"
  | some s => s

/-- Record stored by `ErrorHandler.attach_validation_error`
(class `ValidationError`, error_handler.py lines 98-113). -/
structure ValidationError where
  target : Option String
  stage : String
  suffix : Option String
  parameter : String
  value : Option String
  notice : Option String
deriving DecidableEq

/-- Rendering `ValidationError.__str__` (error_handler.py lines 110-113):
`'Error: %s, Value of %s = \'%s\' for %sid = \'%s\'\n' % (notice, parameter,
value, stage+"_", suffix)`. -/
def vstr (e : ValidationError) : String :=
  "Error: " ++ pyS e.notice ++ ", Value of " ++ e.parameter ++ " = '" ++ pyS e.value
    ++ "' for " ++ (e.stage ++ "_") ++ "id = '" ++ pyS e.suffix ++ "'\n"

/-- Record stored by `ErrorHandler.attach_consistency_error`
(class `ConsistencyError`, error_handler.py lines 115-124). -/
structure ConsistencyError where
  target : Option String
  stage : String
  suffix : Option String
deriving DecidableEq

/-- Body of `RecordCounter.increment` (error_handler.py lines 132-136): bump the
named counter if present, otherwise create it with value 1.  The same method is
inherited by `DatabaseErrorCollection`, whose keys are db-error signature
texts. -/
def increment (c : List (String × Nat)) (counter_name : String) : List (String × Nat) :=
  if (c.lookup counter_name).isSome then
    c.map (fun p => if p.1 = counter_name then (p.1, p.2 + 1) else p)
  else
    c ++ [(counter_name, 1)]

/-- Body of a Python dict item assignment `c[k] = v` on a `RecordCounter`:
overwrite in place if the key exists, otherwise insert it. -/
def rc_assign (c : List (String × Nat)) (k : String) (v : Nat) : List (String × Nat) :=
  if (c.lookup k).isSome then
    c.map (fun p => if p.1 = k then (p.1, v) else p)
  else
    c ++ [(k, v)]

/-- Body of `DatabaseErrorCollection.get_error_count_msg` (error_handler.py
lines 154-157): `'%s error(s) occured during run.\n' % (len(self))` - the
length of the counter dict, i.e. the number of distinct signature texts. -/
def db_get_error_count_msg (c : List (String × Nat)) : String :=
  toString c.length ++ " error(s) occured during run.\n"

/-- The `ValidationError` built by `ErrorHandler.attach_validation_error`
(error_handler.py lines 204-222).  Note the source first reads
`protein_target_id`, and then unconditionally overwrites `target` with the
literal `'Protocol'` whenever `stage == 'protocol'`. -/
def validation_error_of (stage param : String) (data_dict : List (String × String))
    (notice : Option String) : ValidationError :=
  let target : Option String := none
  let target := match data_dict.lookup "protein_target_id" with
    | some v => some v
    | none => target
  let target := if stage = "protocol" then some "Protocol" else target
  let suffix := data_dict.lookup (stage ++ "_id")
  let value := data_dict.lookup param
  { target := target, stage := stage, suffix := suffix, parameter := param,
    value := value, notice := notice }

/-- State of the `ErrorHandler` singleton (error_handler.py lines 159-286):
its four collections plus the log sink. -/
structure ErrorHandler where
  validation_error_collection : List ValidationError
  db_error_collection : List (String × Nat)
  consistency_error_collection : List ConsistencyError
  r_counter : List (String × List (String × Nat))
  log : List String
deriving DecidableEq

/-- Freshly constructed handler (`ErrorHandler.__init__`): empty collections,
one start-up log line. -/
def fresh_handler : ErrorHandler :=
  { validation_error_collection := [], db_error_collection := [],
    consistency_error_collection := [], r_counter := [],
    log := ["Logger initiated."] }

/-- `ErrorHandler.attach_db_error` (lines 193-197): log the text, then count it
in the database-error frequency map. -/
def attach_db_error (h : ErrorHandler) (text : String) : ErrorHandler :=
  { h with log := h.log ++ [text],
           db_error_collection := increment h.db_error_collection text }

/-- `ErrorHandler.attach_consistency_error` (lines 199-202). -/
def attach_consistency_error (h : ErrorHandler) (target : Option String) (stage : String)
    (idv : Option String) : ErrorHandler :=
  { h with consistency_error_collection :=
      h.consistency_error_collection ++ [{ target := target, stage := stage, suffix := idv }] }

/-- `ErrorHandler.attach_validation_error` (lines 204-222): append the derived
record to the validation collection. -/
def attach_validation_error (h : ErrorHandler) (stage param : String)
    (data_dict : List (String × String)) (notice : Option String) : ErrorHandler :=
  { h with validation_error_collection :=
      h.validation_error_collection ++ [validation_error_of stage param data_dict notice] }

/-- Shared shape of the four counter methods (lines 250-276): create the
stage's `RecordCounter` when missing, then apply `f` to it. -/
def counter_at (m : List (String × List (String × Nat))) (stage : String)
    (f : List (String × Nat) → List (String × Nat)) : List (String × List (String × Nat)) :=
  let m := if (m.lookup stage).isSome then m else m ++ [(stage, [])]
  m.map (fun p => if p.1 = stage then (p.1, f p.2) else p)

/-- `ErrorHandler.increment_updated` (lines 250-255). -/
def increment_updated (h : ErrorHandler) (stage : String) : ErrorHandler :=
  { h with r_counter := counter_at h.r_counter stage (increment · "updated") }

/-- `ErrorHandler.increment_inserted` (lines 257-262). -/
def increment_inserted (h : ErrorHandler) (stage : String) : ErrorHandler :=
  { h with r_counter := counter_at h.r_counter stage (increment · "inserted") }

/-- `ErrorHandler.set_lab_db_count` (lines 264-269). -/
def set_lab_db_count (h : ErrorHandler) (stage : String) (value : Nat) : ErrorHandler :=
  { h with r_counter := counter_at h.r_counter stage (fun c => rc_assign c "lab_db" value) }

/-- `ErrorHandler.set_center_db_count` (lines 271-276). -/
def set_center_db_count (h : ErrorHandler) (stage : String) (value : Nat) : ErrorHandler :=
  { h with r_counter := counter_at h.r_counter stage (fun c => rc_assign c "center_db" value) }

/-- `ErrorHandler.get_count_values_msg` (lines 278-286): `'%s:\n' % stage`
followed by `'\t%s records: %s\n' % (k, v)` for each counter. -/
def get_count_values_msg (h : ErrorHandler) : String :=
  h.r_counter.foldl
    (fun message p =>
      p.2.foldl (fun m kv => m ++ "\t" ++ kv.1 ++ " records: " ++ toString kv.2 ++ "\n")
        (message ++ p.1 ++ ":\n"))
    ""

/-- Boolean key comparison used when Python sorts records by a key function
(`sorted(..., key=f)` compares the keys with the order of the key type). -/
def keyLe {α κ : Type} [LinearOrder κ] (f : α → κ) : α → α → Bool :=
  fun a b => decide (f a ≤ f b)

/-- Model of `itertools.groupby(l, f)`: the maximal runs of consecutive
elements sharing one key, each run tagged with its key. -/
def groupRuns {α κ : Type} [DecidableEq κ] (f : α → κ) : List α → List (κ × List α)
  | [] => []
  | a :: as =>
      (f a, a :: as.takeWhile (fun x => decide (f x = f a))) ::
        groupRuns f (as.dropWhile (fun x => decide (f x = f a)))
  termination_by l => l.length
  decreasing_by
    simp only [List.length_cons]
    exact Nat.lt_succ_of_le (List.dropWhile_sublist _).length_le

/-- Body of `ErrorCollection.__group_errors_t_s` (error_handler.py lines
29-41): sort by target, group by target, and inside each target group sort by
stage and group by stage.  The two dict levels are association lists stored
in the order `groupby` produced them - a storage convenience only: the Python
dicts this models promise no iteration order (CPython 2 iterates in hash
order), so order-sensitive claims about the rendered report are settled
against `get_error_msg_in`, which takes the iteration order as a parameter. -/
def group_errors_t_s (l : List ValidationError) :
    List (Option String × List (String × List ValidationError)) :=
  (groupRuns (fun o : ValidationError => o.target)
      (l.mergeSort (keyLe (fun o : ValidationError => o.target)))).map
    (fun kg => (kg.1, groupRuns (fun o : ValidationError => o.stage)
      (kg.2.mergeSort (keyLe (fun o : ValidationError => o.stage)))))

/-- Outer keys of the grouped structure: the targets, in stored order. -/
def target_keys (l : List ValidationError) : List (Option String) :=
  (group_errors_t_s l).map Prod.fst

/-- Inner keys reachable under target `t`: the stages, in stored order. -/
def stage_keys (l : List ValidationError) (t : Option String) : List String :=
  (((group_errors_t_s l).lookup t).getD []).map Prod.fst

/-- Records stored in the `(t, s)` bucket of the grouped structure. -/
def bucket (l : List ValidationError) (t : Option String) (s : String) :
    List ValidationError :=
  ((((group_errors_t_s l).lookup t).getD []).lookup s).getD []

/-- All records of the grouped structure, in the order `get_error_msg` walks
them: targets in key order, stages under each target in key order, then the
bucket contents. -/
def emitted_records (l : List ValidationError) : List ValidationError :=
  (target_keys l).flatMap (fun t => (stage_keys l t).flatMap (fun s => bucket l t s))

/-- Concatenation of a list of strings, used to state the rendered reports. -/
def sConcat : List String → String
  | [] => ""
  | s :: rest => s ++ sConcat rest

/-- Body of `ErrorCollection.get_error_msg` (error_handler.py lines 55-67): a
`Target:` header per sorted target key, then per stage bucket a `Stage:` line
with the bucket size and the rendered records, all appended into one message.
Only the outer keys are sorted (`sorted(error_dict_keys)`, line 61); the
inner dict is walked here in stored order, which is one admissible iteration
order of the unsorted `error_dict[k].items()` loop (line 63) that
`get_error_msg_in` makes explicit. -/
def get_error_msg (l : List ValidationError) : String :=
  let G := group_errors_t_s l
  ((G.map Prod.fst).mergeSort (fun a b => decide (a ≤ b))).foldl
    (fun message k =>
      ((G.lookup k).getD []).foldl
        (fun m si =>
          si.2.foldl (fun mm item => mm ++ "\t\t" ++ vstr item)
            (m ++ "\tStage: " ++ si.1 ++ "\t(" ++ toString si.2.length
              ++ " error(s)).\n"))
        (message ++ "Target: " ++ pyS k ++ "\n"))
    ""

/-- Renderer of `ErrorCollection.get_error_msg` with the inner dict iteration
order made explicit: `ord t` is the sequence in which Python walks
`error_dict[t].items()` (error_handler.py line 63).  CPython 2 dicts iterate
in hash order and the source never sorts the inner items - only the outer
`sorted(error_dict_keys)` (line 61) exists - so a faithful statement about
the report's inner order quantifies over every `ord` that enumerates the
stored buckets (a permutation of them). -/
def get_error_msg_in (ord : Option String → List (String × List ValidationError))
    (l : List ValidationError) : String :=
  let G := group_errors_t_s l
  ((G.map Prod.fst).mergeSort (fun a b => decide (a ≤ b))).foldl
    (fun message k =>
      (ord k).foldl
        (fun m si =>
          si.2.foldl (fun mm item => mm ++ "\t\t" ++ vstr item)
            (m ++ "\tStage: " ++ si.1 ++ "\t(" ++ toString si.2.length
              ++ " error(s)).\n"))
        (message ++ "Target: " ++ pyS k ++ "\n"))
    ""

/-- Record used by the C4 theorems: stage `clone` under target `t`. -/
def c4_rec1 : ValidationError :=
  { target := some "t", stage := "clone", suffix := none, parameter := "p",
    value := none, notice := none }

/-- Record used by the C4 theorems: stage `expression` under the same
target. -/
def c4_rec2 : ValidationError :=
  { target := some "t", stage := "expression", suffix := none, parameter := "q",
    value := none, notice := none }

/-- One admissible dict iteration order used by the C4 theorems: it
enumerates each stored inner dict in reverse - a hash order CPython 2 is free
to produce, since dict iteration order is unspecified. -/
def c4_ord (l : List ValidationError) :
    Option String → List (String × List ValidationError) :=
  fun t => (((group_errors_t_s l).lookup t).getD []).reverse

/-- Body of `ErrorCollection.get_error_count_msg` (error_handler.py lines
81-96): per sorted target key a `Target:` line with the target's total and a
per-stage `{count} in {stage}` breakdown, the grand total accumulated along
the way and printed in front of the per-target sections. -/
def get_error_count_msg (l : List ValidationError) : String :=
  let G := group_errors_t_s l
  let acc := ((G.map Prod.fst).mergeSort (fun a b => decide (a ≤ b))).foldl
    (fun acc k =>
      let inner := (G.lookup k).getD []
      let total := inner.foldl (fun tl si => tl + si.2.length) 0
      let detailed := inner.foldl
        (fun dm si => dm ++ "\t" ++ toString si.2.length ++ " in " ++ si.1 ++ "\n") ""
      (acc.1 + total,
        acc.2 ++ "Target: " ++ pyS k ++ "\t(" ++ toString total ++ " error(s))\n"
          ++ detailed))
    (0, "")
  toString acc.1 ++ " error(s) occured during this run.\n " ++ acc.2

/-- `ErrorHandler.get_validation_error_msg` (error_handler.py lines 225-226). -/
def get_validation_error_msg (h : ErrorHandler) : String :=
  get_error_msg h.validation_error_collection

/-- `ErrorHandler.get_validation_errors_statistics_msg` (lines 234-235). -/
def get_validation_errors_statistics_msg (h : ErrorHandler) : String :=
  get_error_count_msg h.validation_error_collection

/-- Records used by the C7 witness: two distinct records in one (target,
stage) bucket. -/
def c7_rec1 : ValidationError :=
  { target := some "t", stage := "clone", suffix := none, parameter := "p",
    value := some "v1", notice := none }

/-- Second record of the C7 witness, same target and stage as `c7_rec1`. -/
def c7_rec2 : ValidationError :=
  { target := some "t", stage := "clone", suffix := none, parameter := "q",
    value := some "v2", notice := none }

/-- Record used by the C3 counterexample: one validation error. -/
def c3_rec : ValidationError :=
  { target := some "t", stage := "clone", suffix := none, parameter := "p",
    value := some "v", notice := none }

/-- Record used by the C9 theorem's witness: absent value, suffix and notice. -/
def c9_record : ValidationError :=
  { target := some "490006", stage := "clone", suffix := none, parameter := "protocol_id",
    value := none, notice := none }

/-- C2 (counterexample): the claim says `target` prefers an explicit
`protein_target_id` of `record_data` and falls back to the literal `'Protocol'`
only when `stage == 'protocol'`.  On the input with `stage = "protocol"` and
`record_data = {protein_target_id: "490006"}` the code yields `'Protocol'`,
not the explicit field's `"490006"`: the literal overrides, it is not a
fallback. -/
theorem c2_counterexample :
    (validation_error_of "protocol" "p" [("protein_target_id", "490006")] none).target
        = some "Protocol" ∧
      (some "Protocol" : Option String) ≠ some "490006" :=
  ⟨rfl, by decide⟩

/-- C2 (amended): `target` is the literal `'Protocol'` whenever
`stage == 'protocol'` (overriding any explicit `protein_target_id`), otherwise
the explicit `protein_target_id` when that key is present, otherwise absent;
`suffix` is `record_data["{stage}_id"]` if present, else absent; `value` is
`record_data[parameter]` if present, else absent.  In particular the `clone`
scenario of the claim holds as stated. -/
theorem c2_amended :
    (∀ (stage param : String) (d : List (String × String)) (notice : Option String),
        (validation_error_of stage param d notice).target
            = (if stage = "protocol" then some "Protocol" else d.lookup "protein_target_id") ∧
          (validation_error_of stage param d notice).suffix = d.lookup (stage ++ "_id") ∧
          (validation_error_of stage param d notice).value = d.lookup param ∧
          (validation_error_of stage param d notice).stage = stage ∧
          (validation_error_of stage param d notice).parameter = param ∧
          (validation_error_of stage param d notice).notice = notice) ∧
      validation_error_of "clone" "protocol_id"
          [("protocol_id", "uva_cloning_1"), ("protein_target_id", "490006")]
          (some "Protocol is gone")
        = { target := some "490006", stage := "clone", suffix := none,
            parameter := "protocol_id", value := some "uva_cloning_1",
            notice := some "Protocol is gone" } := by
  constructor
  · intro stage param d notice
    refine ⟨?_, rfl, rfl, rfl, rfl, rfl⟩
    simp only [validation_error_of]
    cases hpt : d.lookup "protein_target_id" <;> simp [hpt]
  · rfl

/-- C5 (counterexample): recording the same signature text five times does make
the Frequency Collector report a count of one distinct signature, but the
rendered summary is `"1 error(s) occured during run.\n"` (source spelling, with
a trailing newline), not the claim's quoted `"1 error(s) occurred during
run."`. -/
theorem c5_counterexample :
    db_get_error_count_msg ((fun c => increment c "X")^[5] [])
        = "1 error(s) occured during run.\n" ∧
      "1 error(s) occured during run.\n" ≠ "1 error(s) occurred during run." :=
  ⟨rfl, by decide⟩

/-- Lookup succeeds exactly on the stored keys. -/
theorem lookup_isSome_iff_mem {κ β : Type} [BEq κ] [LawfulBEq κ]
    (c : List (κ × β)) (k : κ) :
    (c.lookup k).isSome = true ↔ k ∈ c.map Prod.fst := by
  induction c with
  | nil => simp [List.lookup]
  | cons e c ih =>
      rcases e with ⟨k0, b0⟩
      simp only [List.lookup_cons, List.map_cons, List.mem_cons]
      cases hbeq : k == k0 with
      | true =>
          have hk := eq_of_beq hbeq
          subst hk
          simp
      | false =>
          have hne : k ≠ k0 := by
            intro h
            rw [h] at hbeq
            simp at hbeq
          simp [hne, ih]

/-- Key effect of one `increment`: keys unchanged when the text is already
counted, the text appended otherwise. -/
theorem increment_keys (c : List (String × Nat)) (t : String) :
    (increment c t).map Prod.fst
      = if t ∈ c.map Prod.fst then c.map Prod.fst else c.map Prod.fst ++ [t] := by
  unfold increment
  by_cases h : (c.lookup t).isSome = true
  · rw [if_pos h, if_pos ((lookup_isSome_iff_mem c t).mp h)]
    rw [List.map_map]
    exact List.map_congr_left
      (fun p _ => by by_cases hp : p.1 = t <;> simp [hp, Function.comp])
  · rw [if_neg h, if_neg (fun hm => h ((lookup_isSome_iff_mem c t).mpr hm))]
    simp

/-- Keys of a whole run of `increment` calls: the first-occurrence list of
the recorded texts, continued from the starting keys. -/
theorem foldl_increment_keys (texts : List String) :
    ∀ c : List (String × Nat),
      (texts.foldl increment c).map Prod.fst
        = texts.foldl (fun ks t => if t ∈ ks then ks else ks ++ [t]) (c.map Prod.fst) := by
  induction texts with
  | nil => intro c; rfl
  | cons t ts ih =>
      intro c
      rw [List.foldl_cons, List.foldl_cons, ih, increment_keys]

/-- The first-occurrence key fold keeps the key list duplicate-free. -/
theorem keys_fold_nodup (texts : List String) :
    ∀ ks : List String, ks.Nodup →
      (texts.foldl (fun ks t => if t ∈ ks then ks else ks ++ [t]) ks).Nodup := by
  induction texts with
  | nil => intro ks h; exact h
  | cons t ts ih =>
      intro ks h
      rw [List.foldl_cons]
      refine ih _ ?_
      by_cases hm : t ∈ ks
      · simpa [hm] using h
      · simp only [if_neg hm]
        simp [List.nodup_append, h, hm]

/-- Membership in the first-occurrence key fold. -/
theorem keys_fold_mem (texts : List String) :
    ∀ (ks : List String) (x : String),
      x ∈ texts.foldl (fun ks t => if t ∈ ks then ks else ks ++ [t]) ks
        ↔ x ∈ ks ∨ x ∈ texts := by
  induction texts with
  | nil => intro ks x; simp
  | cons t ts ih =>
      intro ks x
      rw [List.foldl_cons, ih]
      by_cases hm : t ∈ ks
      · simp only [if_pos hm, List.mem_cons]
        constructor
        · rintro (h | h)
          · exact Or.inl h
          · exact Or.inr (Or.inr h)
        · rintro (h | h | h)
          · exact Or.inl h
          · exact Or.inl (h ▸ hm)
          · exact Or.inr h
      · simp only [if_neg hm, List.mem_append, List.mem_singleton, List.mem_cons]
        tauto

/-- The Frequency Collector's size after any run of `increment` calls is the
number of distinct recorded texts. -/
theorem db_distinct_count (texts : List String) :
    (texts.foldl increment []).length = texts.dedup.length := by
  have h1 := List.length_map (texts.foldl increment []) (Prod.fst)
  rw [← h1, foldl_increment_keys]
  have hnd : (texts.foldl (fun ks t => if t ∈ ks then ks else ks ++ [t])
      (([] : List (String × Nat)).map Prod.fst)).Nodup :=
    keys_fold_nodup texts _ (by simp)
  have hperm : (texts.foldl (fun ks t => if t ∈ ks then ks else ks ++ [t])
      (([] : List (String × Nat)).map Prod.fst)).Perm texts.dedup := by
    refine (List.perm_ext_iff_of_nodup hnd (List.nodup_dedup texts)).mpr ?_
    intro x
    rw [keys_fold_mem, List.mem_dedup]
    simp
  exact hperm.length_eq

/-- A run of `attach_db_error` calls drives the db-error map by `increment`. -/
theorem foldl_attach_db (texts : List String) :
    ∀ h : ErrorHandler,
      (texts.foldl attach_db_error h).db_error_collection
        = texts.foldl increment h.db_error_collection := by
  induction texts with
  | nil => intro h; rfl
  | cons t ts ih =>
      intro h
      rw [List.foldl_cons, List.foldl_cons, ih]
      rfl

/-- Repeated `increment` of one key only bumps that key's count. -/
theorem replicate_increment (t : String) :
    ∀ (n m : Nat), (List.replicate n t).foldl increment [(t, m)] = [(t, m + n)] := by
  intro n
  induction n with
  | zero => intro m; simp
  | succ k ih =>
      intro m
      rw [List.replicate_succ, List.foldl_cons]
      have h1 : increment [(t, m)] t = [(t, m + 1)] := by simp [increment, List.lookup]
      rw [h1, ih]
      have hadd : m + 1 + k = m + (k + 1) := by omega
      rw [hadd]

/-- C5 (amended): for every sequence of `attach_db_error` calls from a fresh
handler, the Frequency Collector's count summary reports the number of
distinct signature texts recorded, not the total number of occurrences; in
particular recording one text `n ≥ 1` times yields the summary
`"1 error(s) occured during run.\n"` (source spelling, trailing newline). -/
theorem c5_amended (texts : List String) :
    db_get_error_count_msg
        ((texts.foldl attach_db_error fresh_handler).db_error_collection)
        = toString texts.dedup.length ++ " error(s) occured during run.\n" ∧
      ∀ (t : String) (n : Nat), 1 ≤ n →
        db_get_error_count_msg
            (((List.replicate n t).foldl attach_db_error fresh_handler).db_error_collection)
          = "1 error(s) occured during run.\n" := by
  constructor
  · rw [foldl_attach_db]
    show db_get_error_count_msg (texts.foldl increment []) = _
    unfold db_get_error_count_msg
    rw [db_distinct_count]
  · intro t n hn
    obtain ⟨k, rfl⟩ : ∃ k, n = k + 1 := ⟨n - 1, by omega⟩
    rw [foldl_attach_db]
    show db_get_error_count_msg ((List.replicate (k + 1) t).foldl increment []) = _
    rw [List.replicate_succ, List.foldl_cons]
    have h0 : increment [] t = [(t, 1)] := by simp [increment, List.lookup]
    rw [h0, replicate_increment t k 1]
    simp [db_get_error_count_msg]
    rfl

/-- C6: ingestion is total by construction in this embedding (every `attach_*`
operation is a Lean function), and a `record_data` missing the target field,
the `"{stage}_id"` key and the `parameter` key still yields an appended record
whose unfound fields are all absent rather than a failure. -/
theorem c6 (h : ErrorHandler) (stage param : String) (d : List (String × String))
    (notice : Option String)
    (h1 : d.lookup "protein_target_id" = none)
    (h2 : d.lookup (stage ++ "_id") = none)
    (h3 : d.lookup param = none)
    (h4 : stage ≠ "protocol") :
    (attach_validation_error h stage param d notice).validation_error_collection
      = h.validation_error_collection ++
        [{ target := none, stage := stage, suffix := none, parameter := param,
           value := none, notice := notice }] := by
  simp [attach_validation_error, validation_error_of, h1, h2, h3, h4]

/-- Witness for C6: a one-key dict holding none of the looked-up keys. -/
theorem c6_witness :
    ([("x", "y")].lookup "protein_target_id" = (none : Option String)) ∧
      ([("x", "y")].lookup ("clone" ++ "_id") = (none : Option String)) ∧
      ([("x", "y")].lookup "p" = (none : Option String)) ∧
      "clone" ≠ "protocol" ∧
      (attach_validation_error fresh_handler "clone" "p" [("x", "y")] none).validation_error_collection
        = fresh_handler.validation_error_collection ++
          [{ target := none, stage := "clone", suffix := none, parameter := "p",
             value := none, notice := none }] :=
  ⟨by decide, by decide, by decide, by decide,
    c6 fresh_handler "clone" "p" [("x", "y")] none (by decide) (by decide) (by decide)
      (by decide)⟩

/-- C8: from a fresh handler, `increment_inserted "clone"` twice and then
`set_lab_db_count "clone" 231` gives the `clone` bucket
`inserted = 2, lab_db = 231` with no `updated` entry, and
`get_count_values_msg` renders exactly that. -/
theorem c8 :
    ((set_lab_db_count (increment_inserted (increment_inserted fresh_handler "clone") "clone")
          "clone" 231).r_counter.lookup "clone"
        = some [("inserted", 2), ("lab_db", 231)]) ∧
      ((((set_lab_db_count (increment_inserted (increment_inserted fresh_handler "clone")
              "clone") "clone" 231).r_counter.lookup "clone").getD []).lookup "updated"
        = none) ∧
      get_count_values_msg
          (set_lab_db_count (increment_inserted (increment_inserted fresh_handler "clone")
            "clone") "clone" 231)
        = "clone:\n\tinserted records: 2\n\tlab_db records: 231\n" :=
  ⟨rfl, rfl, rfl⟩

/-- C9: a `ValidationError` whose `value` and `suffix` are absent renders with
the literal text `None` in both quoted positions (and an absent `notice` also
renders through `pyS` as `None`): absent fields are neither omitted nor
rendered as the empty string. -/
theorem c9 (e : ValidationError) (h1 : e.value = none) (h2 : e.suffix = none) :
    vstr e = "Error: " ++ pyS e.notice ++ ", Value of " ++ e.parameter ++ " = '" ++ "None"
        ++ "' for " ++ (e.stage ++ "_") ++ "id = '" ++ "None" ++ "'\n" := by
  simp [vstr, h1, h2, pyS]

/-- Witness for C9: a concrete record with absent value, suffix and notice
renders to the fully collapsed line with three literal `None` occurrences. -/
theorem c9_witness :
    c9_record.value = none ∧ c9_record.suffix = none ∧
      vstr c9_record = "Error: None, Value of protocol_id = 'None' for clone_id = 'None'\n" :=
  ⟨rfl, rfl, (c9 c9_record rfl rfl).trans (by decide)⟩

/-- C10: each ingestion method mutates only its own collection.
`attach_validation_error` leaves the db-error map, the consistency collection,
the counters and the log unchanged; `attach_consistency_error` changes only the
consistency collection; `attach_db_error` changes only the db-error map and the
log sink; the four counter methods change only the stage-counter map. -/
theorem c10 (h : ErrorHandler) (stage param text : String) (d : List (String × String))
    (notice target idv : Option String) (value : Nat) :
    ((attach_validation_error h stage param d notice).db_error_collection
          = h.db_error_collection ∧
        (attach_validation_error h stage param d notice).consistency_error_collection
          = h.consistency_error_collection ∧
        (attach_validation_error h stage param d notice).r_counter = h.r_counter ∧
        (attach_validation_error h stage param d notice).log = h.log) ∧
      ((attach_consistency_error h target stage idv).validation_error_collection
          = h.validation_error_collection ∧
        (attach_consistency_error h target stage idv).db_error_collection
          = h.db_error_collection ∧
        (attach_consistency_error h target stage idv).r_counter = h.r_counter ∧
        (attach_consistency_error h target stage idv).log = h.log) ∧
      ((attach_db_error h text).validation_error_collection = h.validation_error_collection ∧
        (attach_db_error h text).consistency_error_collection
          = h.consistency_error_collection ∧
        (attach_db_error h text).r_counter = h.r_counter) ∧
      ((increment_updated h stage).validation_error_collection
          = h.validation_error_collection ∧
        (increment_updated h stage).db_error_collection = h.db_error_collection ∧
        (increment_updated h stage).consistency_error_collection
          = h.consistency_error_collection ∧
        (increment_updated h stage).log = h.log) ∧
      ((increment_inserted h stage).validation_error_collection
          = h.validation_error_collection ∧
        (increment_inserted h stage).db_error_collection = h.db_error_collection ∧
        (increment_inserted h stage).consistency_error_collection
          = h.consistency_error_collection ∧
        (increment_inserted h stage).log = h.log) ∧
      ((set_lab_db_count h stage value).validation_error_collection
          = h.validation_error_collection ∧
        (set_lab_db_count h stage value).db_error_collection = h.db_error_collection ∧
        (set_lab_db_count h stage value).consistency_error_collection
          = h.consistency_error_collection ∧
        (set_lab_db_count h stage value).log = h.log) ∧
      ((set_center_db_count h stage value).validation_error_collection
          = h.validation_error_collection ∧
        (set_center_db_count h stage value).db_error_collection = h.db_error_collection ∧
        (set_center_db_count h stage value).consistency_error_collection
          = h.consistency_error_collection ∧
        (set_center_db_count h stage value).log = h.log) :=
  ⟨⟨rfl, rfl, rfl, rfl⟩, ⟨rfl, rfl, rfl, rfl⟩, ⟨rfl, rfl, rfl⟩, ⟨rfl, rfl, rfl, rfl⟩,
    ⟨rfl, rfl, rfl, rfl⟩, ⟨rfl, rfl, rfl, rfl⟩, ⟨rfl, rfl, rfl, rfl⟩⟩

theorem groupRuns_flatMap {α κ : Type} [DecidableEq κ] (f : α → κ) (l : List α) :
    (groupRuns f l).flatMap Prod.snd = l := by
  induction l using groupRuns.induct f with
  | case1 => rw [groupRuns]; rfl
  | case2 a as ih =>
      rw [groupRuns]
      simp only [List.flatMap_cons]
      rw [ih]
      simp [List.takeWhile_append_dropWhile]

theorem dropWhile_head_false {α : Type} (p : α → Bool) :
    ∀ (l : List α) (y : α) (ys : List α), l.dropWhile p = y :: ys → p y = false := by
  intro l
  induction l with
  | nil => intro y ys h; simp [List.dropWhile] at h
  | cons a as ih =>
      intro y ys h
      rw [List.dropWhile_cons] at h
      by_cases hp : p a = true
      · rw [if_pos hp] at h; exact ih y ys h
      · rw [if_neg hp] at h
        cases h
        simpa using hp

theorem groupRuns_key_of_mem {α κ : Type} [DecidableEq κ] (f : α → κ) (l : List α) :
    ∀ kg ∈ groupRuns f l, ∀ x ∈ kg.2, f x = kg.1 := by
  induction l using groupRuns.induct f with
  | case1 => rw [groupRuns]; intro kg h; simp at h
  | case2 a as ih =>
      rw [groupRuns]
      intro kg hkg x hx
      rcases List.mem_cons.mp hkg with h | h
      · subst h
        rcases List.mem_cons.mp hx with h | h
        · subst h; rfl
        · simpa using List.mem_takeWhile_imp h
      · exact ih kg h x hx

theorem groupRuns_fst_mem {α κ : Type} [DecidableEq κ] (f : α → κ) (l : List α) :
    ∀ kg ∈ groupRuns f l, kg.1 ∈ l.map f := by
  induction l using groupRuns.induct f with
  | case1 => rw [groupRuns]; intro kg h; simp at h
  | case2 a as ih =>
      rw [groupRuns]
      intro kg hkg
      rcases List.mem_cons.mp hkg with h | h
      · subst h; simp
      · have := ih kg h
        have hsub : ((as.dropWhile (fun x => decide (f x = f a))).map f).Sublist
            ((a :: as).map f) := by
          exact List.Sublist.map f ((List.dropWhile_sublist _).trans (List.sublist_cons_self a as))
        exact hsub.mem this

theorem lt_of_mem_dropWhile_key {α κ : Type} [LinearOrder κ] [DecidableEq κ] (f : α → κ)
    (a : α) (as : List α) (hs : (a :: as).Pairwise (fun x y => f x ≤ f y)) :
    ∀ x ∈ as.dropWhile (fun x => decide (f x = f a)), f a < f x := by
  intro x hx
  have hle : ∀ y ∈ as, f a ≤ f y := (List.pairwise_cons.mp hs).1
  have hpw : as.Pairwise (fun x y => f x ≤ f y) := (List.pairwise_cons.mp hs).2
  cases hd : as.dropWhile (fun x => decide (f x = f a)) with
  | nil => rw [hd] at hx; simp at hx
  | cons y ys =>
      rw [hd] at hx
      have hy_ne : f y ≠ f a := by
        have := dropWhile_head_false _ as y ys hd
        simpa using this
      have hy_mem : y ∈ as := ((List.dropWhile_sublist _).mem (hd ▸ List.mem_cons_self y ys))
      have hay : f a < f y := lt_of_le_of_ne (hle y hy_mem) (Ne.symm hy_ne)
      rcases List.mem_cons.mp hx with h | h
      · subst h; exact hay
      · have hpd : (y :: ys).Pairwise (fun x y => f x ≤ f y) := by
          rw [← hd]; exact List.Pairwise.sublist (List.dropWhile_sublist _) hpw
        have : f y ≤ f x := (List.pairwise_cons.mp hpd).1 x h
        exact lt_of_lt_of_le hay this

theorem groupRuns_keys_pairwise {α κ : Type} [LinearOrder κ] [DecidableEq κ] (f : α → κ) :
    ∀ l : List α, l.Pairwise (fun x y => f x ≤ f y) →
      ((groupRuns f l).map Prod.fst).Pairwise (· < ·) := by
  intro l
  induction l using groupRuns.induct f with
  | case1 => intro _; rw [groupRuns]; simp
  | case2 a as ih =>
      intro hs
      rw [groupRuns]
      simp only [List.map_cons]
      refine List.pairwise_cons.mpr ⟨?_, ?_⟩
      · intro k hk
        rcases List.mem_map.mp hk with ⟨kg, hkg, rfl⟩
        rcases List.mem_map.mp (groupRuns_fst_mem f _ kg hkg) with ⟨x, hx, hfx⟩
        rw [← hfx]
        exact lt_of_mem_dropWhile_key f a as hs x hx
      · exact ih (List.Pairwise.sublist (List.dropWhile_sublist _)
          (List.pairwise_cons.mp hs).2)

theorem lookup_getD_groupRuns {α κ : Type} [LinearOrder κ] [DecidableEq κ] [BEq κ]
    [LawfulBEq κ] (f : α → κ) :
    ∀ l : List α, l.Pairwise (fun x y => f x ≤ f y) → ∀ k : κ,
      ((groupRuns f l).lookup k).getD [] = l.filter (fun x => decide (f x = k)) := by
  intro l
  induction l using groupRuns.induct f with
  | case1 => intro _ k; rw [groupRuns]; simp
  | case2 a as ih =>
      intro hs k
      have hpw : as.Pairwise (fun x y => f x ≤ f y) := (List.pairwise_cons.mp hs).2
      have hdw : (as.dropWhile (fun x => decide (f x = f a))).Pairwise
          (fun x y => f x ≤ f y) :=
        List.Pairwise.sublist (List.dropWhile_sublist _) hpw
      rw [groupRuns]
      by_cases hk : k = f a
      · rw [hk]
        simp only [List.lookup_cons, beq_self_eq_true, Option.getD_some]
        rw [List.filter_cons, if_pos (by simp)]
        congr 1
        conv_rhs => rw [← List.takeWhile_append_dropWhile (fun x => decide (f x = f a)) as]
        rw [List.filter_append]
        have h1 : (as.takeWhile (fun x => decide (f x = f a))).filter
            (fun x => decide (f x = f a)) = as.takeWhile (fun x => decide (f x = f a)) := by
          refine List.filter_eq_self.mpr (fun x hx => ?_)
          exact List.mem_takeWhile_imp (p := fun y => decide (f y = f a)) hx
        have h2 : (as.dropWhile (fun x => decide (f x = f a))).filter
            (fun x => decide (f x = f a)) = [] := by
          refine List.filter_eq_nil_iff.mpr (fun x hx => ?_)
          have hlt := lt_of_mem_dropWhile_key f a as hs x hx
          simp only [decide_eq_true_eq]
          exact fun he => absurd he (ne_of_gt hlt)
        rw [h1, h2, List.append_nil]
      · have hbeq : (k == f a) = false := beq_eq_false_iff_ne.mpr hk
        simp only [List.lookup_cons, hbeq]
        rw [ih hdw k]
        rw [List.filter_cons]
        rw [if_neg (by simp only [decide_eq_true_eq]; exact fun he => hk he.symm)]
        conv_rhs => rw [← List.takeWhile_append_dropWhile (fun x => decide (f x = f a)) as]
        rw [List.filter_append]
        have h1 : (as.takeWhile (fun x => decide (f x = f a))).filter
            (fun x => decide (f x = k)) = [] := by
          refine List.filter_eq_nil_iff.mpr (fun x hx => ?_)
          have hx2 := List.mem_takeWhile_imp hx
          simp only [decide_eq_true_eq] at hx2 ⊢
          intro he
          exact hk (by rw [← he, hx2])
        rw [h1, List.nil_append]

theorem lookup_map_snd {κ β γ : Type} [BEq κ] [LawfulBEq κ] (F : κ → β → γ) :
    ∀ (G : List (κ × β)) (t : κ),
      (G.map (fun kg => (kg.1, F kg.1 kg.2))).lookup t = (G.lookup t).map (F t) := by
  intro G t
  induction G with
  | nil => rfl
  | cons kg G ih =>
      rcases kg with ⟨k, b⟩
      simp only [List.map_cons, List.lookup_cons]
      cases hbeq : t == k with
      | true =>
          have : t = k := eq_of_beq hbeq
          subst this
          rfl
      | false => exact ih

theorem lookup_eq_some_of_mem {κ β : Type} [BEq κ] [LawfulBEq κ] :
    ∀ (G : List (κ × β)), (G.map Prod.fst).Nodup → ∀ kg ∈ G, G.lookup kg.1 = some kg.2 := by
  intro G
  induction G with
  | nil => intro _ kg h; simp at h
  | cons e G ih =>
      rcases e with ⟨k0, b0⟩
      intro hnd kg hm
      rw [List.map_cons] at hnd
      have hnd2 := List.nodup_cons.mp hnd
      rcases List.mem_cons.mp hm with h | h
      · subst h
        simp [List.lookup_cons]
      · have hne : kg.1 ≠ k0 := by
          intro he
          have hmem : kg.1 ∈ G.map Prod.fst := List.mem_map_of_mem Prod.fst h
          rw [he] at hmem
          exact hnd2.1 hmem
        have hbeq : (kg.1 == k0) = false := beq_eq_false_iff_ne.mpr hne
        simp only [List.lookup_cons, hbeq]
        exact ih hnd2.2 kg h

theorem map_keys_lookup {κ β γ : Type} [BEq κ] [LawfulBEq κ] (F : κ → β → γ) (d : β) :
    ∀ (G : List (κ × β)), (G.map Prod.fst).Nodup →
      (G.map Prod.fst).map (fun k => F k ((G.lookup k).getD d)) = G.map (fun kg => F kg.1 kg.2) := by
  intro G hnd
  rw [List.map_map]
  refine List.map_congr_left (fun kg hm => ?_)
  simp only [Function.comp_apply]
  rw [lookup_eq_some_of_mem G hnd kg hm]
  rfl

theorem flatMap_perm_pointwise {α β : Type} (g₁ g₂ : α → List β)
    (h : ∀ a, (g₁ a).Perm (g₂ a)) : ∀ L : List α, (L.flatMap g₁).Perm (L.flatMap g₂) := by
  intro L
  induction L with
  | nil => simp
  | cons a L ih =>
      simp only [List.flatMap_cons]
      exact List.Perm.append (h a) ih

theorem mergeSort_key_pairwise {α κ : Type} [LinearOrder κ] (f : α → κ) (l : List α) :
    (l.mergeSort (keyLe f)).Pairwise (fun x y => f x ≤ f y) := by
  have htrans : ∀ a b c : α, keyLe f a b = true → keyLe f b c = true → keyLe f a c = true := by
    intro a b c h1 h2
    simp only [keyLe, decide_eq_true_eq] at h1 h2 ⊢
    exact le_trans h1 h2
  have htotal : ∀ a b : α, (keyLe f a b || keyLe f b a) = true := by
    intro a b
    simp only [keyLe, Bool.or_eq_true, decide_eq_true_eq]
    exact le_total (f a) (f b)
  have h := List.sorted_mergeSort htrans htotal l
  exact h.imp (fun hx => by simpa [keyLe] using hx)

theorem target_keys_eq (l : List ValidationError) :
    target_keys l = (groupRuns (fun o : ValidationError => o.target)
      (l.mergeSort (keyLe (fun o : ValidationError => o.target)))).map Prod.fst := by
  unfold target_keys group_errors_t_s
  rw [List.map_map]
  exact List.map_congr_left (fun kg _ => rfl)

theorem lookup_group (l : List ValidationError) (t : Option String) :
    (group_errors_t_s l).lookup t
      = ((groupRuns (fun o : ValidationError => o.target)
          (l.mergeSort (keyLe (fun o : ValidationError => o.target)))).lookup t).map
        (fun g => groupRuns (fun o : ValidationError => o.stage)
          (g.mergeSort (keyLe (fun o : ValidationError => o.stage)))) := by
  unfold group_errors_t_s
  exact lookup_map_snd
    (fun (_ : Option String) (g : List ValidationError) =>
      groupRuns (fun o : ValidationError => o.stage)
        (g.mergeSort (keyLe (fun o : ValidationError => o.stage)))) _ t

theorem bucket_eq (l : List ValidationError) (t : Option String) (s : String) :
    bucket l t s
      = (((l.mergeSort (keyLe (fun o : ValidationError => o.target))).filter
            (fun x => decide (x.target = t))).mergeSort
          (keyLe (fun o : ValidationError => o.stage))).filter
          (fun x => decide (x.stage = s)) := by
  have houter := lookup_getD_groupRuns (fun o : ValidationError => o.target)
    (l.mergeSort (keyLe (fun o : ValidationError => o.target)))
    (mergeSort_key_pairwise (fun o : ValidationError => o.target) l) t
  unfold bucket
  rw [lookup_group]
  cases hc : (groupRuns (fun o : ValidationError => o.target)
      (l.mergeSort (keyLe (fun o : ValidationError => o.target)))).lookup t with
  | none =>
      rw [hc] at houter
      simp only [Option.getD_none] at houter
      rw [← houter]
      simp
  | some g =>
      rw [hc] at houter
      simp only [Option.getD_some] at houter
      simp only [Option.map_some', Option.getD_some]
      rw [lookup_getD_groupRuns (fun o : ValidationError => o.stage)
        (g.mergeSort (keyLe (fun o : ValidationError => o.stage)))
        (mergeSort_key_pairwise (fun o : ValidationError => o.stage) g) s]
      rw [houter]

theorem bucket_perm_filter (l : List ValidationError) (t : Option String) (s : String) :
    (bucket l t s).Perm
      (l.filter (fun x => decide (x.target = t) && decide (x.stage = s))) := by
  rw [bucket_eq]
  refine (List.Perm.filter _ (List.mergeSort_perm _ _)).trans ?_
  rw [List.filter_filter]
  refine (List.Perm.filter _ (List.mergeSort_perm l _)).trans ?_
  rw [List.filter_congr
    (fun a _ => Bool.and_comm (decide (a.stage = s)) (decide (a.target = t)))]

theorem target_keys_sorted (l : List ValidationError) :
    (target_keys l).Pairwise (· ≤ ·) ∧ (target_keys l).Nodup := by
  have h := groupRuns_keys_pairwise (fun o : ValidationError => o.target) _
    (mergeSort_key_pairwise (fun o : ValidationError => o.target) l)
  rw [← target_keys_eq] at h
  exact ⟨h.imp (fun hx => le_of_lt hx), h.imp (fun hx => ne_of_lt hx)⟩

theorem stage_keys_sorted (l : List ValidationError) (t : Option String) :
    (stage_keys l t).Pairwise (· ≤ ·) ∧ (stage_keys l t).Nodup := by
  unfold stage_keys
  rw [lookup_group]
  cases hc : (groupRuns (fun o : ValidationError => o.target)
      (l.mergeSort (keyLe (fun o : ValidationError => o.target)))).lookup t with
  | none => constructor <;> simp
  | some g =>
      simp only [Option.map_some', Option.getD_some]
      have h := groupRuns_keys_pairwise (fun o : ValidationError => o.stage) _
        (mergeSort_key_pairwise (fun o : ValidationError => o.stage) g)
      exact ⟨h.imp (fun hx => le_of_lt hx), h.imp (fun hx => ne_of_lt hx)⟩

theorem target_keys_nodup (l : List ValidationError) : (target_keys l).Nodup :=
  (target_keys_sorted l).2

theorem stage_keys_nodup (l : List ValidationError) (t : Option String) :
    (stage_keys l t).Nodup :=
  (stage_keys_sorted l t).2

/-- C7: grouping is order-independent - for any two permutation-equal
ingestion sequences (in particular those reordering records inside one
(target, stage) pair) every (target, stage) bucket holds the same multiset of
records. -/
theorem c7 (l₁ l₂ : List ValidationError) (hp : l₁.Perm l₂) (t : Option String)
    (s : String) : (bucket l₁ t s).Perm (bucket l₂ t s) :=
  (bucket_perm_filter l₁ t s).trans
    ((hp.filter _).trans (bucket_perm_filter l₂ t s).symm)

/-- Witness for C7: swapping two records of the same (target, stage) bucket
leaves the bucket contents permutation-equal. -/
theorem c7_witness :
    ([c7_rec1, c7_rec2] : List ValidationError).Perm [c7_rec2, c7_rec1] ∧
      (bucket [c7_rec1, c7_rec2] (some "t") "clone").Perm
        (bucket [c7_rec2, c7_rec1] (some "t") "clone") :=
  ⟨List.Perm.swap c7_rec2 c7_rec1 [],
    c7 [c7_rec1, c7_rec2] [c7_rec2, c7_rec1] (List.Perm.swap c7_rec2 c7_rec1 [])
      (some "t") "clone"⟩


theorem mergeSort_one {α : Type} (le : α → α → Bool) (a : α) : [a].mergeSort le = [a] :=
  List.perm_singleton.mp (List.mergeSort_perm [a] le)

theorem flatMap_keys_lookup {κ β γ : Type} [BEq κ] [LawfulBEq κ]
    (F : κ → List β → List γ) (G : List (κ × List β)) (hnd : (G.map Prod.fst).Nodup) :
    (G.map Prod.fst).flatMap (fun k => F k ((G.lookup k).getD []))
      = G.flatMap (fun kg => F kg.1 kg.2) := by
  rw [List.flatMap_def, List.flatMap_def, map_keys_lookup F [] G hnd]

theorem stage_flat (l : List ValidationError) (t : Option String) :
    (stage_keys l t).flatMap (fun s => bucket l t s)
      = (((group_errors_t_s l).lookup t).getD []).flatMap Prod.snd := by
  have hnd := stage_keys_nodup l t
  exact flatMap_keys_lookup (fun (_ : String) (g : List ValidationError) => g) _ hnd

theorem inner_flat_perm (l : List ValidationError) :
    ((target_keys l).flatMap (fun t =>
        (((group_errors_t_s l).lookup t).getD []).flatMap Prod.snd)).Perm l := by
  have hnd := target_keys_nodup l
  rw [show target_keys l = (group_errors_t_s l).map Prod.fst from rfl] at hnd ⊢
  rw [flatMap_keys_lookup
    (fun (_ : Option String) (inner : List (String × List ValidationError)) =>
      inner.flatMap Prod.snd) _ hnd]
  unfold group_errors_t_s
  rw [List.flatMap_def, List.map_map]
  rw [show ((fun kg : Option String × List (String × List ValidationError) =>
        kg.2.flatMap Prod.snd) ∘
      (fun kg : Option String × List ValidationError =>
        (kg.1, groupRuns (fun o : ValidationError => o.stage)
          (kg.2.mergeSort (keyLe (fun o : ValidationError => o.stage))))))
      = (fun kg : Option String × List ValidationError =>
          kg.2.mergeSort (keyLe (fun o : ValidationError => o.stage))) from
    funext (fun kg => groupRuns_flatMap (fun o : ValidationError => o.stage) _)]
  rw [← List.flatMap_def]
  refine (flatMap_perm_pointwise _ _ (fun kg => List.mergeSort_perm _ _) _).trans ?_
  rw [groupRuns_flatMap (fun o : ValidationError => o.target)
    (l.mergeSort (keyLe (fun o : ValidationError => o.target)))]
  exact List.mergeSort_perm l _

theorem emitted_records_perm (l : List ValidationError) : (emitted_records l).Perm l := by
  unfold emitted_records
  have h2 : (fun t => (stage_keys l t).flatMap (fun s => bucket l t s))
      = (fun t => (((group_errors_t_s l).lookup t).getD []).flatMap Prod.snd) :=
    funext (stage_flat l)
  rw [h2]
  exact inner_flat_perm l

theorem mem_bucket_fields (l : List ValidationError) (t : Option String) (s : String)
    (r : ValidationError) (hr : r ∈ bucket l t s) : r.target = t ∧ r.stage = s := by
  rw [bucket_eq] at hr
  have h1 := List.mem_filter.mp hr
  have hstage : r.stage = s := by simpa using h1.2
  have h2 : r ∈ (l.mergeSort (keyLe (fun o : ValidationError => o.target))).filter
      (fun x => decide (x.target = t)) :=
    (List.mergeSort_perm _ _).mem_iff.mp h1.1
  have htarget : r.target = t := by simpa using (List.mem_filter.mp h2).2
  exact ⟨htarget, hstage⟩

theorem mem_bucket_self (l : List ValidationError) (r : ValidationError) (hr : r ∈ l) :
    r ∈ bucket l r.target r.stage := by
  rw [(bucket_perm_filter l r.target r.stage).mem_iff]
  exact List.mem_filter.mpr ⟨hr, by simp⟩

theorem target_keys_sort_id (l : List ValidationError) :
    ((group_errors_t_s l).map Prod.fst).mergeSort (fun a b => decide (a ≤ b))
      = (group_errors_t_s l).map Prod.fst :=
  List.mergeSort_eq_self (target_keys_sorted l).1

theorem items_fold (items : List ValidationError) :
    ∀ acc : String,
      items.foldl (fun mm item => mm ++ "\t\t" ++ vstr item) acc
        = acc ++ sConcat (items.map (fun r => "\t\t" ++ vstr r)) := by
  induction items with
  | nil => intro acc; simp [sConcat]
  | cons a as ih =>
      intro acc
      rw [List.foldl_cons, ih]
      simp [sConcat, String.append_assoc]

theorem stages_fold (inner : List (String × List ValidationError)) :
    ∀ acc : String,
      inner.foldl
        (fun m si =>
          si.2.foldl (fun mm item => mm ++ "\t\t" ++ vstr item)
            (m ++ "\tStage: " ++ si.1 ++ "\t(" ++ toString si.2.length
              ++ " error(s)).\n"))
        acc
      = acc ++ sConcat (inner.map (fun si =>
          "\tStage: " ++ si.1 ++ "\t(" ++ toString si.2.length ++ " error(s)).\n"
            ++ sConcat (si.2.map (fun r => "\t\t" ++ vstr r)))) := by
  induction inner with
  | nil => intro acc; simp [sConcat]
  | cons si rest ih =>
      intro acc
      rw [List.foldl_cons, items_fold, ih]
      simp [sConcat, String.append_assoc]

theorem targets_fold (G : List (Option String × List (String × List ValidationError))) :
    ∀ (keys : List (Option String)) (acc : String),
      keys.foldl
        (fun message k =>
          ((G.lookup k).getD []).foldl
            (fun m si =>
              si.2.foldl (fun mm item => mm ++ "\t\t" ++ vstr item)
                (m ++ "\tStage: " ++ si.1 ++ "\t(" ++ toString si.2.length
                  ++ " error(s)).\n"))
            (message ++ "Target: " ++ pyS k ++ "\n"))
        acc
      = acc ++ sConcat (keys.map (fun k =>
          "Target: " ++ pyS k ++ "\n"
            ++ sConcat (((G.lookup k).getD []).map (fun si =>
              "\tStage: " ++ si.1 ++ "\t(" ++ toString si.2.length ++ " error(s)).\n"
                ++ sConcat (si.2.map (fun r => "\t\t" ++ vstr r)))))) := by
  intro keys
  induction keys with
  | nil => intro acc; simp [sConcat]
  | cons k ks ih =>
      intro acc
      rw [List.foldl_cons, stages_fold, ih]
      simp [sConcat, String.append_assoc]

theorem get_error_msg_eq (l : List ValidationError) :
    get_error_msg l
      = sConcat ((target_keys l).map (fun t =>
          "Target: " ++ pyS t ++ "\n"
            ++ sConcat ((stage_keys l t).map (fun s =>
              "\tStage: " ++ s ++ "\t(" ++ toString (bucket l t s).length
                ++ " error(s)).\n"
                ++ sConcat ((bucket l t s).map (fun r => "\t\t" ++ vstr r)))))) := by
  simp only [get_error_msg]
  rw [target_keys_sort_id l, targets_fold, String.empty_append]
  refine congrArg sConcat (List.map_congr_left (fun t ht => ?_))
  congr 1
  refine congrArg sConcat ?_
  exact (map_keys_lookup
    (fun (s : String) (g : List ValidationError) =>
      "\tStage: " ++ s ++ "\t(" ++ toString g.length ++ " error(s)).\n"
        ++ sConcat (g.map (fun r => "\t\t" ++ vstr r)))
    [] (((group_errors_t_s l).lookup t).getD []) (stage_keys_nodup l t)).symm

/-- C1: the full validation report is exactly the concatenation, over the
grouped structure, of one target header per target key, one stage line per
stage bucket, and the rendered string of each bucket record - and the buckets
partition the appended records: every record lands in the unique (target,
stage) bucket matching its own fields, no record is lost and none duplicated
(the walked record sequence is a permutation of the input, target keys and
stage keys are duplicate-free). -/
theorem c1 (l : List ValidationError) :
    get_error_msg l
        = sConcat ((target_keys l).map (fun t =>
            "Target: " ++ pyS t ++ "\n"
              ++ sConcat ((stage_keys l t).map (fun s =>
                "\tStage: " ++ s ++ "\t(" ++ toString (bucket l t s).length
                  ++ " error(s)).\n"
                  ++ sConcat ((bucket l t s).map (fun r => "\t\t" ++ vstr r)))))) ∧
      (emitted_records l).Perm l ∧
      (∀ t s r, r ∈ bucket l t s → r.target = t ∧ r.stage = s) ∧
      (∀ r ∈ l, r ∈ bucket l r.target r.stage) ∧
      (target_keys l).Nodup ∧ (∀ t, (stage_keys l t).Nodup) :=
  ⟨get_error_msg_eq l, emitted_records_perm l,
    fun t s r hr => mem_bucket_fields l t s r hr,
    fun r hr => mem_bucket_self l r hr,
    target_keys_nodup l, fun t => stage_keys_nodup l t⟩


theorem total_fold (inner : List (String × List ValidationError)) :
    ∀ n : Nat,
      inner.foldl (fun tl si => tl + si.2.length) n
        = n + (inner.map (fun si => si.2.length)).sum := by
  induction inner with
  | nil => intro n; simp
  | cons si rest ih =>
      intro n
      rw [List.foldl_cons, ih]
      simp only [List.map_cons, List.sum_cons]
      omega

theorem detailed_fold (inner : List (String × List ValidationError)) :
    ∀ acc : String,
      inner.foldl
        (fun dm si => dm ++ "\t" ++ toString si.2.length ++ " in " ++ si.1 ++ "\n") acc
        = acc ++ sConcat (inner.map (fun si =>
            "\t" ++ toString si.2.length ++ " in " ++ si.1 ++ "\n")) := by
  induction inner with
  | nil => intro acc; simp [sConcat]
  | cons si rest ih =>
      intro acc
      rw [List.foldl_cons, ih]
      simp [sConcat, String.append_assoc]

theorem count_fold (G : List (Option String × List (String × List ValidationError))) :
    ∀ (keys : List (Option String)) (acc : Nat × String),
      keys.foldl
        (fun acc k =>
          (acc.1 + ((G.lookup k).getD []).foldl (fun tl si => tl + si.2.length) 0,
            acc.2 ++ "Target: " ++ pyS k ++ "\t("
              ++ toString (((G.lookup k).getD []).foldl (fun tl si => tl + si.2.length) 0)
              ++ " error(s))\n"
              ++ ((G.lookup k).getD []).foldl
                (fun dm si => dm ++ "\t" ++ toString si.2.length ++ " in " ++ si.1 ++ "\n")
                ""))
        acc
      = (acc.1 + (keys.map (fun k =>
            (((G.lookup k).getD []).map (fun si => si.2.length)).sum)).sum,
          acc.2 ++ sConcat (keys.map (fun k =>
            "Target: " ++ pyS k ++ "\t("
              ++ toString ((((G.lookup k).getD []).map (fun si => si.2.length)).sum)
              ++ " error(s))\n"
              ++ sConcat (((G.lookup k).getD []).map (fun si =>
                "\t" ++ toString si.2.length ++ " in " ++ si.1 ++ "\n"))))) := by
  intro keys
  induction keys with
  | nil =>
      intro acc
      simp [sConcat]
  | cons k ks ih =>
      intro acc
      rw [List.foldl_cons, ih, total_fold, detailed_fold]
      simp only [sConcat, List.map_cons, List.sum_cons, Nat.zero_add, String.empty_append,
        Prod.mk.injEq]
      constructor
      · omega
      · simp [String.append_assoc]

theorem grand_total_eq (l : List ValidationError) :
    ((target_keys l).map (fun k =>
        ((((group_errors_t_s l).lookup k).getD []).map (fun si => si.2.length)).sum)).sum
      = l.length := by
  have hp := (emitted_records_perm l).length_eq
  rw [← hp]
  unfold emitted_records
  rw [List.length_flatMap]
  congr 1
  refine List.map_congr_left (fun t ht => ?_)
  simp only [Function.comp]
  rw [List.length_flatMap]
  congr 1
  have hml := map_keys_lookup (fun (s : String) (g : List ValidationError) => g.length)
    [] (((group_errors_t_s l).lookup t).getD []) (stage_keys_nodup l t)
  exact hml.symm

theorem target_total_eq (l : List ValidationError) (t : Option String) :
    ((((group_errors_t_s l).lookup t).getD []).map (fun si => si.2.length)).sum
      = l.countP (fun r => decide (r.target = t)) := by
  have houter := lookup_getD_groupRuns (fun o : ValidationError => o.target)
    (l.mergeSort (keyLe (fun o : ValidationError => o.target)))
    (mergeSort_key_pairwise (fun o : ValidationError => o.target) l) t
  have hcnt : l.countP (fun r => decide (r.target = t))
      = ((l.mergeSort (keyLe (fun o : ValidationError => o.target))).filter
          (fun x => decide (x.target = t))).length := by
    rw [← List.countP_eq_length_filter]
    exact ((List.mergeSort_perm l _).countP_eq _).symm
  rw [lookup_group]
  cases hc : (groupRuns (fun o : ValidationError => o.target)
      (l.mergeSort (keyLe (fun o : ValidationError => o.target)))).lookup t with
  | none =>
      rw [hc] at houter
      simp only [Option.getD_none] at houter
      rw [hcnt, ← houter]
      simp
  | some g =>
      rw [hc] at houter
      simp only [Option.getD_some] at houter
      simp only [Option.map_some', Option.getD_some]
      have hflat := groupRuns_flatMap (fun o : ValidationError => o.stage)
        (g.mergeSort (keyLe (fun o : ValidationError => o.stage)))
      have hlen : ((groupRuns (fun o : ValidationError => o.stage)
            (g.mergeSort (keyLe (fun o : ValidationError => o.stage)))).map
          (fun si => si.2.length)).sum
          = (g.mergeSort (keyLe (fun o : ValidationError => o.stage))).length := by
        conv_rhs => rw [← hflat]
        rw [List.length_flatMap]
        congr 1
      rw [hlen, houter]
      rw [hcnt]
      exact (List.mergeSort_perm _ _).length_eq

theorem bucket_length_eq (l : List ValidationError) (t : Option String) (s : String) :
    (bucket l t s).length
      = l.countP (fun r => decide (r.target = t) && decide (r.stage = s)) := by
  rw [(bucket_perm_filter l t s).length_eq, ← List.countP_eq_length_filter]

theorem group_c3 : group_errors_t_s [c3_rec] = [(some "t", [("clone", [c3_rec])])] := by
  simp [group_errors_t_s, mergeSort_one, groupRuns, c3_rec]

/-- C3 (counterexample): the claim says the grand-total line comes after all
per-target sections.  On a one-record input the code returns the grand total
first (`'%s error(s) occured during this run.\n %s' % (grand_total, message)`
puts the total in front), so the output differs from the claimed
sections-then-total text. -/
theorem c3_counterexample :
    get_error_count_msg [c3_rec]
        = "1 error(s) occured during this run.\n Target: t\t(1 error(s))\n\t1 in clone\n" ∧
      "1 error(s) occured during this run.\n Target: t\t(1 error(s))\n\t1 in clone\n"
        ≠ "Target: t\t(1 error(s))\n\t1 in clone\n1 error(s) occured during this run.\n" := by
  constructor
  · simp only [get_error_count_msg, group_c3]
    simp [mergeSort_one]
    rfl
  · decide

/-- C3 (amended): `get_error_count_msg` emits the grand total first -
`"{grand} error(s) occured during this run.\n "` - and then, for each target
in ascending order, the target name, that target's total error count across
all its stages (the number of records with that target), and a per-stage
breakdown line `"{count} in {stage}"` for each of its stages; the grand total
equals the number of appended records. -/
theorem c3_amended (l : List ValidationError) :
    get_error_count_msg l
      = toString l.length ++ " error(s) occured during this run.\n "
        ++ sConcat ((target_keys l).map (fun t =>
            "Target: " ++ pyS t ++ "\t("
              ++ toString (l.countP (fun r => decide (r.target = t)))
              ++ " error(s))\n"
              ++ sConcat ((stage_keys l t).map (fun s =>
                "\t" ++ toString (l.countP (fun r => decide (r.target = t)
                  && decide (r.stage = s))) ++ " in " ++ s ++ "\n")))) := by
  simp only [get_error_count_msg]
  rw [target_keys_sort_id l, count_fold]
  simp only [Nat.zero_add, String.empty_append]
  rw [show (group_errors_t_s l).map Prod.fst = target_keys l from rfl]
  rw [grand_total_eq l]
  congr 1
  refine congrArg sConcat (List.map_congr_left (fun t ht => ?_))
  rw [target_total_eq l t]
  congr 1
  have hmap := map_keys_lookup
    (fun (s : String) (items : List ValidationError) =>
      "\t" ++ toString items.length ++ " in " ++ s ++ "\n")
    [] (((group_errors_t_s l).lookup t).getD []) (stage_keys_nodup l t)
  rw [← hmap]
  refine congrArg sConcat (List.map_congr_left (fun s hs => ?_))
  have hb : (((((group_errors_t_s l).lookup t).getD []).lookup s).getD []).length
      = l.countP (fun r => decide (r.target = t) && decide (r.stage = s)) :=
    bucket_length_eq l t s
  simp only [hb]


theorem targets_fold_in (inn : Option String → List (String × List ValidationError)) :
    ∀ (keys : List (Option String)) (acc : String),
      keys.foldl
        (fun message k =>
          (inn k).foldl
            (fun m si =>
              si.2.foldl (fun mm item => mm ++ "\t\t" ++ vstr item)
                (m ++ "\tStage: " ++ si.1 ++ "\t(" ++ toString si.2.length
                  ++ " error(s)).\n"))
            (message ++ "Target: " ++ pyS k ++ "\n"))
        acc
      = acc ++ sConcat (keys.map (fun k =>
          "Target: " ++ pyS k ++ "\n"
            ++ sConcat ((inn k).map (fun si =>
              "\tStage: " ++ si.1 ++ "\t(" ++ toString si.2.length ++ " error(s)).\n"
                ++ sConcat (si.2.map (fun r => "\t\t" ++ vstr r)))))) := by
  intro keys
  induction keys with
  | nil => intro acc; simp [sConcat]
  | cons k ks ih =>
      intro acc
      rw [List.foldl_cons, stages_fold, ih]
      simp [sConcat, String.append_assoc]

theorem group_c4 :
    group_errors_t_s [c4_rec1, c4_rec2]
      = [(some "t", [("clone", [c4_rec1]), ("expression", [c4_rec2])])] := by
  have hmT : [c4_rec1, c4_rec2].mergeSort
      (keyLe (fun o : ValidationError => o.target)) = [c4_rec1, c4_rec2] := by
    refine List.mergeSort_of_sorted (List.pairwise_pair.mpr ?_)
    simp [keyLe, c4_rec1, c4_rec2]
  have hmS : [c4_rec1, c4_rec2].mergeSort
      (keyLe (fun o : ValidationError => o.stage)) = [c4_rec1, c4_rec2] := by
    refine List.mergeSort_of_sorted (List.pairwise_pair.mpr ?_)
    simp [keyLe, c4_rec1, c4_rec2]
    try decide
  have e1 : c4_rec1.target = some "t" := rfl
  have e2 : c4_rec2.target = some "t" := rfl
  have e3 : c4_rec1.stage = "clone" := rfl
  have e4 : c4_rec2.stage = "expression" := rfl
  unfold group_errors_t_s
  rw [hmT]
  simp [groupRuns, hmS, e1, e2, e3, e4]

/-- C4 (counterexample): the claim says the stage buckets under each target
are emitted in ascending stage order.  The source sorts only the outer target
keys (`sorted(error_dict_keys)`, line 61) and walks `error_dict[k].items()`
unsorted (line 63); CPython 2 iterates dicts in hash order, so any
enumeration of the stored buckets is an admissible iteration order.  Under
the admissible order that enumerates the inner dict in reverse, two stages
under one target are emitted as `expression` before `clone` - not
ascending. -/
theorem c4_counterexample :
    (∀ t, (c4_ord [c4_rec1, c4_rec2] t).Perm
        (((group_errors_t_s [c4_rec1, c4_rec2]).lookup t).getD [])) ∧
      (c4_ord [c4_rec1, c4_rec2] (some "t")).map Prod.fst = ["expression", "clone"] ∧
      ¬ ((["expression", "clone"] : List String).Pairwise (· ≤ ·)) ∧
      get_error_msg_in (c4_ord [c4_rec1, c4_rec2]) [c4_rec1, c4_rec2]
        = "Target: t\n\tStage: expression\t(1 error(s)).\n\t\tError: None, Value of q = 'None' for expression_id = 'None'\n\tStage: clone\t(1 error(s)).\n\t\tError: None, Value of p = 'None' for clone_id = 'None'\n" := by
  have hord_eq : c4_ord [c4_rec1, c4_rec2]
      = fun t =>
        (([(some "t", [("clone", [c4_rec1]), ("expression", [c4_rec2])])].lookup t).getD
          []).reverse := by
    unfold c4_ord
    rw [group_c4]
  have hns : ¬ ((["expression", "clone"] : List String).Pairwise (· ≤ ·)) := by
    rw [List.pairwise_pair]
    simp
    decide
  refine ⟨fun t => List.reverse_perm _, ?_, hns, ?_⟩
  · rw [hord_eq]
    rfl
  · simp only [get_error_msg_in]
    rw [group_c4, hord_eq]
    simp only [List.map_cons, List.map_nil]
    rw [mergeSort_one]
    rfl

/-- C4 (amended): for every admissible inner dict iteration order `ord` (any
enumeration of the stored stage buckets), `get_error_msg_in` emits the target
headers in ascending target order (absent target is the bottom sentinel
`none`, below every string as in Python 2; the outer key sort is the identity
on the already-ascending, duplicate-free target keys), emits the stage
buckets under each target in the order `ord` dictates, and still covers every
appended record exactly once (the walked record sequence is a permutation of
the input).  Determinism holds for equal inputs and equal dict orders, the
embedding being functional. -/
theorem c4_amended (l : List ValidationError)
    (ord : Option String → List (String × List ValidationError))
    (hord : ∀ t, (ord t).Perm (((group_errors_t_s l).lookup t).getD [])) :
    ((target_keys l).Pairwise (· ≤ ·) ∧ (target_keys l).Nodup) ∧
      (target_keys l).mergeSort (fun a b => decide (a ≤ b)) = target_keys l ∧
      get_error_msg_in ord l
        = sConcat ((target_keys l).map (fun t =>
            "Target: " ++ pyS t ++ "\n"
              ++ sConcat ((ord t).map (fun si =>
                "\tStage: " ++ si.1 ++ "\t(" ++ toString si.2.length
                  ++ " error(s)).\n"
                  ++ sConcat (si.2.map (fun r => "\t\t" ++ vstr r)))))) ∧
      ((target_keys l).flatMap (fun t => (ord t).flatMap Prod.snd)).Perm l := by
  refine ⟨target_keys_sorted l, target_keys_sort_id l, ?_, ?_⟩
  · simp only [get_error_msg_in]
    rw [target_keys_sort_id l, targets_fold_in, String.empty_append]
    rfl
  · exact (flatMap_perm_pointwise _ _
      (fun t => List.Perm.flatMap_right Prod.snd (hord t)) _).trans (inner_flat_perm l)

/-- Witness for C4's amended theorem: the reversed iteration order on a
concrete two-stage input is admissible, and the conclusion holds there. -/
theorem c4_amended_witness :
    (∀ t, (c4_ord [c4_rec1, c4_rec2] t).Perm
        (((group_errors_t_s [c4_rec1, c4_rec2]).lookup t).getD [])) ∧
      (((target_keys [c4_rec1, c4_rec2]).Pairwise (· ≤ ·) ∧
          (target_keys [c4_rec1, c4_rec2]).Nodup) ∧
        (target_keys [c4_rec1, c4_rec2]).mergeSort (fun a b => decide (a ≤ b))
            = target_keys [c4_rec1, c4_rec2] ∧
        get_error_msg_in (c4_ord [c4_rec1, c4_rec2]) [c4_rec1, c4_rec2]
          = sConcat ((target_keys [c4_rec1, c4_rec2]).map (fun t =>
              "Target: " ++ pyS t ++ "\n"
                ++ sConcat ((c4_ord [c4_rec1, c4_rec2] t).map (fun si =>
                  "\tStage: " ++ si.1 ++ "\t(" ++ toString si.2.length
                    ++ " error(s)).\n"
                    ++ sConcat (si.2.map (fun r => "\t\t" ++ vstr r)))))) ∧
        ((target_keys [c4_rec1, c4_rec2]).flatMap
            (fun t => (c4_ord [c4_rec1, c4_rec2] t).flatMap Prod.snd)).Perm
          [c4_rec1, c4_rec2]) :=
  ⟨fun t => List.reverse_perm _,
    c4_amended [c4_rec1, c4_rec2] (c4_ord [c4_rec1, c4_rec2])
      (fun t => List.reverse_perm _)⟩

end EH
